import Mathlib

/-!
Verification of the swgohhelp client (`src/vendor/github.com/ronoaldo/swgoh/swgohhelp/client.go`).

The development shallowly embeds the pure content of the Go code:
machine integers become `Nat`/`Int`, fallible operations become `Except`,
remote endpoints become oracle functions supplied as parameters, and the
mutable player cache becomes explicit state threaded through `playersRun`.
-/

/-! ## Key normalizer (`parseAllyCodes`, client.go lines 216-228) -/

/-- The error `strconv.Atoi` reports: `num` is the string handed to `Atoi`
(in `parseAllyCodes` that is the digit-stripped remainder, not the raw
input), `err` is the strconv error kind. -/
structure NumError where
  num : String
  err : String
  deriving DecidableEq, Repr

/-- `allyCodeCleanup.ReplaceAllString(a, "")` with pattern `[^0-9]`
(client.go line 221): drop every character outside `0`-`9`. -/
def cleanDigits (s : String) : String :=
  String.mk (s.data.filter Char.isDigit)

/-- Numeric value of a decimal digit string read left to right. -/
def digitsToNat (s : String) : Nat :=
  s.data.foldl (fun n c => 10 * n + (c.toNat - 48)) 0

/-- Largest value of Go's 64-bit `int`, the type `strconv.Atoi` parses into
on the amd64 build this repository ships. -/
def maxInt64 : Nat := 9223372036854775807

/-- `strconv.Atoi` restricted to sign-free inputs, the only form reachable
from `parseAllyCodes` (the regexp strips everything but digits first):
empty or non-digit input is a syntax error, a value beyond the 64-bit int
range is a range error, and the error's `num` field is the argument string
itself. -/
def goAtoi (s : String) : Except NumError Int :=
  if s = "" ∨ ¬ (s.data.all Char.isDigit = true) then
    .error { num := s, err := "invalid syntax" }
  else if digitsToNat s > maxInt64 then
    .error { num := s, err := "value out of range" }
  else
    .ok (Int.ofNat (digitsToNat s))

/-- `parseAllyCodes` (client.go lines 219-228): strip each input, `Atoi`
the remainder, abort on the first failure (`return nil, err`), otherwise
append in input order. -/
def parseAllyCodes : List String → Except NumError (List Int)
  | [] => .ok []
  | a :: rest =>
    match goAtoi (cleanDigits a) with
    | .error e => .error e
    | .ok n =>
      match parseAllyCodes rest with
      | .error e => .error e
      | .ok ns => .ok (n :: ns)

-- Equality of `Except` results is decidable; needed to evaluate the model
-- at concrete inputs.
deriving instance DecidableEq for Except

/-- The message of a `*strconv.NumError`, as `fmt` renders it. -/
def formatNumError (e : NumError) : String :=
  "strconv.Atoi: parsing \"" ++ e.num ++ "\": " ++ e.err

/-! ## Player data model

The `Player` struct itself lives in a package file that is not under
`src/`; only `client.go` is vendored. -/

/-- Modelled from the spec: a roster entry (§3) — a unit base-id plus a
combat-statistics payload that the client never inspects and the stat
overlay rewrites wholesale. The payload is abstracted as one integer. -/
structure PlayerUnit where
  baseId : String
  stats : Int
  deriving DecidableEq, Repr

/-- Modelled from the spec: the titles component of a player record (§3) —
a selected-title reference plus the ordered unlocked-title references,
both opaque keys until title enrichment rewrites them to display names. -/
structure PlayerTitles where
  selected : String
  unlocked : List String
  deriving DecidableEq, Repr

/-- Modelled from the spec: the Player record (§3). Fields the client code
never touches (stats, arena, updated timestamp) are carried by the
`name`/`level`/`guildName` payload fields representatively; every claim
here concerns `allyCode`, `titles` and `roster`. -/
structure Player where
  allyCode : Int
  name : String
  level : Int
  guildName : String
  titles : PlayerTitles
  roster : List PlayerUnit
  deriving DecidableEq, Repr

/-! ## Player cache

The `cache.Cache` implementation (`github.com/ronoaldo/swgoh/cache`) is
not under `src/`; it is modelled from the spec. -/

/-- Modelled from the spec: one cache entry (§3, §4.1) — key, payload and
expiration instant; the entry is treated as absent once the current time
exceeds `expiresAt`. -/
structure CacheEntry where
  key : String
  player : Player
  expiresAt : Nat
  deriving DecidableEq, Repr

/-- Modelled from the spec: a player-cache instance (§4.1) — a TTL fixed at
construction plus the stored entries, newest first. -/
structure Cache where
  ttl : Nat
  entries : List CacheEntry
  deriving DecidableEq, Repr

/-- Modelled from the spec: `get(key)` (§4.1) — found only if an entry with
that key is present and unexpired (`now ≤ expiresAt`); newest entry wins. -/
def cacheGet (c : Cache) (now : Nat) (k : String) : Option Player :=
  (c.entries.find? fun e => e.key == k && decide (now ≤ e.expiresAt)).map
    (fun e => e.player)

/-- Modelled from the spec: `put(key, value)` (§4.1) — atomically replace
the value under `key` with a fresh expiration of `now + ttl`. -/
def cachePut (c : Cache) (now : Nat) (k : String) (p : Player) : Cache :=
  { c with entries :=
      { key := k, player := p, expiresAt := now + c.ttl } ::
        c.entries.filter fun e => !(e.key == k) }

/-! ## The `Players` batch fetch (client.go lines 110-207) -/

/-- The title catalog delivered by `DataPlayerTitles`: key/display-name
pairs; `lookupName` is Go map indexing, whose zero value gives `Name = ""`
for an absent key (client.go lines 165-168). -/
def lookupName (cat : List (String × String)) (k : String) : String :=
  match cat.find? (fun kv => kv.1 == k) with
  | some kv => kv.2
  | none => ""

/-- Title enrichment of one record (client.go lines 164-170): the selected
title and every unlocked entry are rewritten from key to catalog display
name, in place. -/
def enrichTitles (cat : List (String × String)) (p : Player) : Player :=
  { p with titles :=
      { selected := lookupName cat p.titles.selected,
        unlocked := p.titles.unlocked.map (lookupName cat) } }

/-- Visible effect of one stat-overlay iteration (client.go lines 173-197)
on `players[i]`. The loop copies the struct (`player := players[i]`) and
unmarshals the service response into the copy's roster slice;
`encoding/json` resets the slice length to zero and appends, so writes land
in the backing array still shared with `players[i].Roster` while the index
is below the response length, and `players[i].Roster` keeps its original
length. Hence the roster the caller sees is the decoded roster padded with
the stale tail and truncated to the original length. -/
def applyOverlay (p : Player) (decoded : List PlayerUnit) : Player :=
  { p with roster :=
      (decoded ++ p.roster.drop decoded.length).take p.roster.length }

/-- One remote interaction performed inside `Players`, recorded in issue
order: the single `/swgoh/player` profile batch, the `DataPlayerTitles`
catalog fetch, and one Crinolo stat-overlay POST per record index. -/
inductive RemoteCall where
  | profileBatch (allycodes : List Int)
  | catalogFetch
  | statOverlay (idx : Nat)
  deriving DecidableEq, Repr

/-- Oracles standing for the remote endpoints `Players` consults: the
profile batch POST (transport, status and JSON decode folded into one
`Except`), the `DataPlayerTitles` catalog, and the per-record stat-overlay
exchange (POST, body read and decode folded into one `Except`, indexed by
loop position). -/
structure FetchEnv where
  fetch : List Int → Except String (List Player)
  catalog : Except String (List (String × String))
  overlay : Nat → Except String (List PlayerUnit)

/-- Cache partitioning pass (client.go lines 116-124): probe the cache per
identifier in input order; hits accumulate into the result slice, misses
into `missingFromCache`, each preserving input order. -/
def partitionCache (c : Cache) (now : Nat) : List Int → List Player × List Int
  | [] => ([], [])
  | n :: rest =>
    let pr := partitionCache c now rest
    match cacheGet c now (toString n) with
    | some p => (p :: pr.1, pr.2)
    | none => (pr.1, n :: pr.2)

/-- The stat-overlay loop (client.go lines 173-197) over the records at
positions `i, i+1, ...`: each iteration queries the overlay oracle and on
success leaves `applyOverlay` visible in the slice; the first failure
returns that error (`return nil, err`), discarding every record. The
second component logs the overlay calls issued. -/
def overlayAll (o : Nat → Except String (List PlayerUnit)) :
    Nat → List Player → Except String (List Player) × List RemoteCall
  | _, [] => (.ok [], [])
  | i, p :: rest =>
    match o i with
    | .error e => (.error e, [.statOverlay i])
    | .ok decoded =>
      match overlayAll o (i + 1) rest with
      | (.error e, calls) => (.error e, .statOverlay i :: calls)
      | (.ok rest', calls) => (.ok (applyOverlay p decoded :: rest'), .statOverlay i :: calls)

/-- `Players` (client.go lines 110-207) as a state function: given the
remote oracles, the player cache and the current time, it returns the
result, the cache after the call, and the log of remote calls issued.
Faithful points: a parse failure aborts before any remote call; if every
identifier is a fresh cache hit no remote call happens; otherwise exactly
one profile batch is issued for the misses, and `json.Decode(&players)`
resets the accumulating slice, so the cache hits gathered so far are
dropped from the result (encoding/json slice semantics); title and overlay
enrichment then run over the fetched records only, and the cache is
written only on the all-success path. -/
def playersRun (env : FetchEnv) (pc : Cache) (now : Nat)
    (allyCodes : List String) :
    Except String (List Player) × Cache × List RemoteCall :=
  match parseAllyCodes allyCodes with
  | .error e =>
    (.error ("swgohhelp: error parsing ally codes: " ++ formatNumError e), pc, [])
  | .ok nums =>
    match partitionCache pc now nums with
    | (hits, []) => (.ok hits, pc, [])
    | (_, m :: ms) =>
      match env.fetch (m :: ms) with
      | .error e => (.error e, pc, [.profileBatch (m :: ms)])
      | .ok fetched =>
        match env.catalog with
        | .error e => (.error e, pc, [.profileBatch (m :: ms), .catalogFetch])
        | .ok cat =>
          match overlayAll env.overlay 0 (fetched.map (enrichTitles cat)) with
          | (.error e, ocalls) =>
            (.error e, pc, .profileBatch (m :: ms) :: .catalogFetch :: ocalls)
          | (.ok final, ocalls) =>
            (.ok final,
             final.foldl (fun c p => cachePut c now (toString p.allyCode) p) pc,
             .profileBatch (m :: ms) :: .catalogFetch :: ocalls)

/-! ## The `call` request builder and `SignIn` (client.go lines 59-107) -/

/-- An HTTP request as `call` assembles it: method/URL from
`http.NewRequest`, plus the headers set afterwards. -/
structure HttpRequest where
  method : String
  url : String
  headers : List (String × String)
  deriving DecidableEq, Repr

/-- `req.Header.Set`: replace any previous value under the key. -/
def setHeader (r : HttpRequest) (k v : String) : HttpRequest :=
  { r with headers := (k, v) :: r.headers.filter fun kv => !(kv.1 == k) }

/-- Outcome of the request-building prefix of `call` (client.go lines
62-69): either the process panics on a nil request, or the `if err != nil`
branch returns the constructor error, or a request is built and handed to
the transport. -/
inductive BuildResult where
  | panicked
  | errReturned (e : String)
  | built (r : HttpRequest)
  deriving DecidableEq, Repr

/-- Lines 62-69 of `call`, statement by statement. `http.NewRequest`
returns either a request or a nil request together with an error; line 63
(`req.Header.Set("Content-type", ...)`) dereferences the request pointer
BEFORE line 67 checks `err`, so on the error path the nil dereference
panics first; on the success path `err` is nil, the Content-type header
and — when the stored token is non-empty — the bearer Authorization header
are set, and the `if err != nil` return never fires. -/
def buildCallRequest (token contentType : String)
    (newReq : Except String HttpRequest) : BuildResult :=
  let req : Option HttpRequest :=
    match newReq with
    | .ok r => some r
    | .error _ => none
  let err : Option String :=
    match newReq with
    | .ok _ => none
    | .error e => some e
  match req with
  | none => .panicked
  | some r =>
    let r := setHeader r "Content-type" contentType
    let r := if token ≠ "" then setHeader r "Authorization" ("Bearer " ++ token) else r
    match err with
    | some e => .errReturned e
    | none => .built r

/-- The decoded body of `POST /auth/signin`. -/
structure AuthResponse where
  accessToken : String
  deriving DecidableEq, Repr

/-- The token-bearing part of the `Client` struct. -/
structure ClientState where
  token : String
  deriving DecidableEq, Repr

/-- `SignIn` (client.go lines 94-107) given the already-decoded outcome of
the auth exchange: on success the client stores the access token and
returns it; on failure the state is unchanged. -/
def signIn (c : ClientState) (resp : Except String AuthResponse) :
    Except String String × ClientState :=
  match resp with
  | .error e => (.error e, c)
  | .ok a => (.ok a.accessToken, { c with token := a.accessToken })

/-! ## Concrete scenarios used by counterexamples and witnesses -/

/-- A player record sitting in the cache: ally code 111111111. -/
def pA : Player :=
  { allyCode := 111111111, name := "Alice", level := 85, guildName := "G",
    titles := { selected := "t1", unlocked := ["t1"] },
    roster := [{ baseId := "LUKE", stats := 10 }] }

/-- The raw profile the batch endpoint returns for ally code 222222222. -/
def pBraw : Player :=
  { allyCode := 222222222, name := "Bob", level := 80, guildName := "H",
    titles := { selected := "t2", unlocked := ["t2", "t3"] },
    roster := [{ baseId := "VADER", stats := 5 }] }

/-- A title catalog knowing `t1` and `t2` but not `t3`. -/
def cat1 : List (String × String) := [("t1", "Conqueror"), ("t2", "Grand Master")]

/-- Oracles: the profile batch yields `pBraw`, the catalog is `cat1`, and
every overlay call answers with a one-unit recalculated roster. -/
def env1 : FetchEnv :=
  { fetch := fun _ => .ok [pBraw],
    catalog := .ok cat1,
    overlay := fun _ => .ok [{ baseId := "VADER", stats := 99 }] }

/-- A cache holding an unexpired entry for ally code 111111111. -/
def cache1 : Cache :=
  { ttl := 3600,
    entries := [{ key := "111111111", player := pA, expiresAt := 1000 }] }

/-- Ally code 222222222's record after title enrichment (`t3` resolves to
the empty name) and the stat overlay. -/
def pBfinal : Player :=
  { allyCode := 222222222, name := "Bob", level := 80, guildName := "H",
    titles := { selected := "Grand Master", unlocked := ["Grand Master", ""] },
    roster := [{ baseId := "VADER", stats := 99 }] }

/-- An empty player cache with TTL 100. -/
def cache0 : Cache := { ttl := 100, entries := [] }

/-- A raw profile with a single-unit roster, for the overlay-length
scenario. -/
def pCraw : Player :=
  { allyCode := 3, name := "Carol", level := 50, guildName := "",
    titles := { selected := "", unlocked := [] },
    roster := [{ baseId := "LUKE", stats := 1 }] }

/-- Oracles where the stat service answers with a TWO-unit roster for a
record whose own roster has one unit. -/
def env2 : FetchEnv :=
  { fetch := fun _ => .ok [pCraw],
    catalog := .ok [],
    overlay := fun _ =>
      .ok [{ baseId := "LUKE", stats := 7 }, { baseId := "HAN", stats := 8 }] }

/-- A minimal profile for ally code 1 with an empty roster. -/
def p3 : Player :=
  { allyCode := 1, name := "P", level := 1, guildName := "",
    titles := { selected := "t", unlocked := [] }, roster := [] }

/-- Oracles for the idempotence scenario around `p3`. -/
def env3 : FetchEnv :=
  { fetch := fun _ => .ok [p3],
    catalog := .ok [("t", "T")],
    overlay := fun _ => .ok [] }

/-- Oracles where the profile batch yields two records and the overlay
call succeeds for the first record but fails for the second. -/
def env4 : FetchEnv :=
  { fetch := fun _ => .ok [pBraw, pCraw],
    catalog := .ok cat1,
    overlay := fun i => if i = 0 then .ok [] else .error "crinolo: connection reset" }

/-- A bare request as `http.NewRequest` would return it. -/
def req0 : HttpRequest := { method := "POST", url := "https://api/swgoh/player", headers := [] }

/-! ## Helper lemmas -/

theorem goAtoi_error_num {s : String} {e : NumError} (h : goAtoi s = .error e) :
    e.num = s := by
  unfold goAtoi at h
  split at h
  · cases h; rfl
  · split at h
    · cases h; rfl
    · cases h

theorem goAtoi_ok_val {s : String} {n : Int} (h : goAtoi s = .ok n) :
    n = Int.ofNat (digitsToNat s) := by
  unfold goAtoi at h
  split at h
  · cases h
  · split at h
    · cases h
    · cases h; rfl

/-! ## Claims about the key normalizer (C4, C5) -/

/-- C4 counterexample: the claim says every input containing a digit
normalizes to its concatenated-digits integer, but a 19-nines input
contains digits and still fails — `strconv.Atoi` rejects values beyond
Go's 64-bit `int` range. -/
theorem c4_overflow_counterexample :
    "9999999999999999999".data.any Char.isDigit = true
    ∧ parseAllyCodes ["9999999999999999999"]
        = .error { num := "9999999999999999999", err := "value out of range" } :=
  ⟨by decide, by decide⟩

/-- C4 (amended): for every input string containing at least one decimal
digit whose concatenated digits fit in a signed 64-bit integer,
`parseAllyCodes` returns that integer; for any input with no digits it
fails with a syntax parse error. -/
theorem c4_digit_normalizer (s : String) :
    (s.data.any Char.isDigit = true → digitsToNat (cleanDigits s) ≤ maxInt64 →
      parseAllyCodes [s] = .ok [Int.ofNat (digitsToNat (cleanDigits s))])
    ∧ ((∀ c ∈ s.data, c.isDigit = false) →
      parseAllyCodes [s] = .error { num := "", err := "invalid syntax" }) := by
  constructor
  · intro h1 h2
    have hne : ¬ (cleanDigits s = "") := by
      intro h
      have hd : (cleanDigits s).data = s.data.filter Char.isDigit := rfl
      rw [h] at hd
      rcases List.any_eq_true.mp h1 with ⟨c, hc, hdig⟩
      have hmem : c ∈ s.data.filter Char.isDigit := List.mem_filter.mpr ⟨hc, hdig⟩
      rw [← hd] at hmem
      cases hmem
    have hall : (cleanDigits s).data.all Char.isDigit = true := by
      rw [show (cleanDigits s).data = s.data.filter Char.isDigit from rfl]
      rw [List.all_eq_true]
      intro c hc
      exact (List.mem_filter.mp hc).2
    have hA : goAtoi (cleanDigits s) = .ok (Int.ofNat (digitsToNat (cleanDigits s))) := by
      unfold goAtoi
      rw [if_neg (not_or.mpr ⟨hne, not_not_intro hall⟩), if_neg (Nat.not_lt.mpr h2)]
    simp [parseAllyCodes, hA]
  · intro h
    have hf : s.data.filter Char.isDigit = [] := by
      rw [List.filter_eq_nil_iff]
      intro c hc
      simp [h c hc]
    have hcl : cleanDigits s = "" := by
      unfold cleanDigits
      rw [hf]
    simp [parseAllyCodes, hcl, goAtoi]

/-- C4 witness: "123-456-789" normalizes to 123456789, by the amended
theorem. -/
theorem c4_digit_normalizer_witness :
    parseAllyCodes ["123-456-789"]
      = .ok [Int.ofNat (digitsToNat (cleanDigits "123-456-789"))]
    ∧ digitsToNat (cleanDigits "123-456-789") = 123456789 :=
  ⟨(c4_digit_normalizer "123-456-789").1 (by decide) (by decide), by decide⟩

/-- C5 counterexample: for the failing batch `["abc"]` the error names the
digit-stripped remainder `""`, not the raw input `"abc"` — the claim's
"error naming the offending raw input" is false. -/
theorem c5_raw_input_not_named_counterexample :
    parseAllyCodes ["abc"] = .error { num := "", err := "invalid syntax" }
    ∧ ("" : String) ≠ "abc" :=
  ⟨by decide, by decide⟩

/-- C5 (amended): if any element fails to normalize, `parseAllyCodes`
returns an error naming the digit-stripped remainder of an offending
input (not the raw input) and no partial result list; if all elements
normalize, the output is the normalization of each input, in input
order. -/
theorem c5_batch_atomic_ordered (as : List String) :
    (∀ e, parseAllyCodes as = .error e →
      ∃ a ∈ as, goAtoi (cleanDigits a) = .error e ∧ e.num = cleanDigits a)
    ∧ (∀ ns, parseAllyCodes as = .ok ns →
      ns = as.map fun a => Int.ofNat (digitsToNat (cleanDigits a))) := by
  induction as with
  | nil =>
    constructor
    · intro e h
      simp [parseAllyCodes] at h
    · intro ns h
      simp [parseAllyCodes] at h
      simp [← h]
  | cons a rest ih =>
    constructor
    · intro e h
      cases hA : goAtoi (cleanDigits a) with
      | error e0 =>
        simp only [parseAllyCodes, hA] at h
        cases h
        exact ⟨a, List.mem_cons_self a rest, hA, goAtoi_error_num hA⟩
      | ok n =>
        cases hR : parseAllyCodes rest with
        | error e1 =>
          simp only [parseAllyCodes, hA, hR] at h
          cases h
          obtain ⟨a2, ha2, hg, hn⟩ := ih.1 e hR
          exact ⟨a2, List.mem_cons_of_mem a ha2, hg, hn⟩
        | ok ns1 =>
          simp only [parseAllyCodes, hA, hR] at h
          cases h
    · intro ns h
      cases hA : goAtoi (cleanDigits a) with
      | error e0 =>
        simp only [parseAllyCodes, hA] at h
        cases h
      | ok n =>
        cases hR : parseAllyCodes rest with
        | error e1 =>
          simp only [parseAllyCodes, hA, hR] at h
          cases h
        | ok ns1 =>
          simp only [parseAllyCodes, hA, hR] at h
          cases h
          simp only [List.map]
          exact List.cons_eq_cons.mpr ⟨goAtoi_ok_val hA, ih.2 ns1 hR⟩

/-- C5 witness: the all-success direction of the amended theorem at the
batch `["1-2", "3"]`. -/
theorem c5_batch_atomic_ordered_witness :
    [(12 : Int), 3]
      = ["1-2", "3"].map fun a => Int.ofNat (digitsToNat (cleanDigits a)) :=
  (c5_batch_atomic_ordered ["1-2", "3"]).2 [12, 3] (by decide)

/-! ## Claims evaluated at concrete scenarios (C1, C2) -/

/-- C1: for a batch [A, B] with A cached and B not, exactly one remote
profile-batch request is issued and its allycodes list is exactly [B]
(third conjunct), A's entry is a valid cache hit at call time (fourth
conjunct) — yet the returned slice is [B's enriched record] only: decoding
the batch response into the accumulating slice resets it, so A's cached
record is dropped, contradicting the claim that both records are
returned. -/
theorem c1_cache_hit_dropped :
    (playersRun env1 cache1 10 ["111111111", "222-222-222"]).1 = .ok [pBfinal]
    ∧ pA ≠ pBfinal
    ∧ (playersRun env1 cache1 10 ["111111111", "222-222-222"]).2.2
        = [.profileBatch [222222222], .catalogFetch, .statOverlay 0]
    ∧ cacheGet cache1 10 "111111111" = some pA :=
  ⟨by decide, by decide, by decide, by decide⟩

/-- C2: one miss record whose roster has one unit, while the stat service
responds with a two-unit roster. The overlay loop mutates a copy of the
record, so only the backing-array aliasing is visible: the caller sees the
one-unit truncation of the decoded roster, not the decoded roster itself —
the record's roster as returned does NOT equal the roster decoded from the
stat-service response. -/
theorem c2_overlay_mutates_copy :
    (playersRun env2 cache0 0 ["3"]).1
      = .ok [{ pCraw with roster := [{ baseId := "LUKE", stats := 7 }] }]
    ∧ env2.overlay 0
      = .ok [{ baseId := "LUKE", stats := 7 }, { baseId := "HAN", stats := 8 }]
    ∧ ([{ baseId := "LUKE", stats := 7 }] : List PlayerUnit)
      ≠ [{ baseId := "LUKE", stats := 7 }, { baseId := "HAN", stats := 8 }] :=
  ⟨by decide, by decide, by decide⟩

/-! ## Claims about `call` and `SignIn` (C9, C10) -/

/-- C9: after a successful sign-in stores a (non-empty) token, every
request built by `call` carries the header
`Authorization: Bearer <token>`. -/
theorem c9_bearer_token_attached (c : ClientState) (a : AuthResponse)
    (req : HttpRequest) (ct : String) (h : a.accessToken ≠ "") :
    ∃ r, buildCallRequest ((signIn c (.ok a)).2).token ct (.ok req) = .built r
      ∧ ("Authorization", "Bearer " ++ a.accessToken) ∈ r.headers := by
  refine ⟨setHeader (setHeader req "Content-type" ct) "Authorization"
    ("Bearer " ++ a.accessToken), ?_, ?_⟩
  · simp [signIn, buildCallRequest, h]
  · simp [setHeader]

/-- C9 witness: the theorem at a concrete client, auth response and
request. -/
theorem c9_bearer_token_attached_witness :
    ∃ r, buildCallRequest
        ((signIn { token := "" } (.ok { accessToken := "tok" })).2).token
        "application/json" (.ok req0) = .built r
      ∧ ("Authorization", "Bearer " ++ "tok") ∈ r.headers :=
  c9_bearer_token_attached { token := "" } { accessToken := "tok" } req0
    "application/json" (by decide)

/-- C10: whenever `http.NewRequest` fails (nil request plus error), `call`
panics on the nil dereference at the header write, which precedes the
error check — it never takes the `if err != nil` return with that
error. -/
theorem c10_nil_request_dereferenced (token ct e : String) :
    buildCallRequest token ct (.error e) = .panicked
    ∧ ∀ e2, buildCallRequest token ct (.error e) ≠ .errReturned e2 := by
  refine ⟨rfl, ?_⟩
  intro e2 h
  simp [buildCallRequest] at h

/-! ## Structural lemmas about the pipeline -/

@[simp]
theorem enrichTitles_allyCode (cat : List (String × String)) (p : Player) :
    (enrichTitles cat p).allyCode = p.allyCode := rfl

@[simp]
theorem applyOverlay_allyCode (p : Player) (d : List PlayerUnit) :
    (applyOverlay p d).allyCode = p.allyCode := rfl

@[simp]
theorem applyOverlay_titles (p : Player) (d : List PlayerUnit) :
    (applyOverlay p d).titles = p.titles := rfl

theorem cacheGet_put_self {c : Cache} {now t : Nat} {k : String} {p : Player}
    (h : t ≤ now + c.ttl) : cacheGet (cachePut c now k p) t k = some p := by
  simp [cacheGet, cachePut, List.find?_cons, h]

theorem lookupName_not_found {cat : List (String × String)} {k : String}
    (h : ∀ x ∈ cat, x.1 ≠ k) : lookupName cat k = "" := by
  unfold lookupName
  have hn : cat.find? (fun kv => kv.1 == k) = none := by
    rw [List.find?_eq_none]
    intro x hx
    simp [h x hx]
  rw [hn]

theorem overlayAll_ok_titles {o : Nat → Except String (List PlayerUnit)}
    (l : List Player) :
    ∀ i l2 cs, overlayAll o i l = (.ok l2, cs) →
      l2.map (fun p => p.titles) = l.map (fun p => p.titles) := by
  induction l with
  | nil =>
    intro i l2 cs h
    simp [overlayAll] at h
    simp [← h.1]
  | cons p rest ih =>
    intro i l2 cs h
    cases ho : o i with
    | error e =>
      simp [overlayAll, ho] at h
    | ok dec =>
      cases hr : overlayAll o (i + 1) rest with
      | mk res calls =>
        cases res with
        | error e =>
          simp [overlayAll, ho, hr] at h
        | ok rest2 =>
          simp only [overlayAll, ho, hr, Prod.mk.injEq, Except.ok.injEq] at h
          obtain ⟨h1, h2⟩ := h
          subst h1
          simp only [List.map_cons, applyOverlay_titles]
          rw [ih (i + 1) rest2 calls hr]

theorem overlayAll_first_error {o : Nat → Except String (List PlayerUnit)} :
    ∀ (l : List Player) (i k : Nat) (e : String),
      k < l.length →
      (∀ j, j < k → ∃ r, o (i + j) = .ok r) →
      o (i + k) = .error e →
      (overlayAll o i l).1 = .error e := by
  intro l
  induction l with
  | nil =>
    intro i k e hk
    exact absurd hk (Nat.not_lt_zero k)
  | cons p rest ih =>
    intro i k e hk hok he
    cases k with
    | zero =>
      have hoi : o i = .error e := by simpa using he
      simp [overlayAll, hoi]
    | succ k2 =>
      obtain ⟨r, hr⟩ := hok 0 (Nat.succ_pos k2)
      have hoi : o i = .ok r := by simpa using hr
      have hrest : (overlayAll o (i + 1) rest).1 = .error e := by
        apply ih (i + 1) k2 e
        · simpa [Nat.succ_lt_succ_iff] using hk
        · intro j hj
          have hja := hok (j + 1) (Nat.succ_lt_succ hj)
          rw [show i + (j + 1) = i + 1 + j by omega] at hja
          exact hja
        · rw [show i + 1 + k2 = i + (k2 + 1) by omega]
          exact he
      cases hspl : overlayAll o (i + 1) rest with
      | mk res calls =>
        rw [hspl] at hrest
        cases res with
        | ok l2 => exact absurd hrest (by simp)
        | error e2 =>
          simp only at hrest
          simp [overlayAll, hoi, hspl, hrest]

theorem playersRun_cache_or_ok (env : FetchEnv) (pc : Cache) (now : Nat)
    (codes : List String) :
    (playersRun env pc now codes).2.1 = pc
    ∨ ∃ l, (playersRun env pc now codes).1 = .ok l := by
  unfold playersRun
  split
  · exact Or.inl rfl
  · split
    · exact Or.inr ⟨_, rfl⟩
    · split
      · exact Or.inl rfl
      · split
        · exact Or.inl rfl
        · split
          · exact Or.inl rfl
          · exact Or.inr ⟨_, rfl⟩

/-! ## Claims about the batch pipeline (C8, C7, C6, C3) -/

/-- C8: whenever `Players` returns an error — parse failure, batch-fetch
failure, title-catalog failure or any stat-overlay failure — the player
cache is exactly the cache it started with: all cache writes happen only
after every enrichment stage has succeeded. -/
theorem c8_error_leaves_cache_unchanged (env : FetchEnv) (pc : Cache)
    (now : Nat) (codes : List String) (e : String)
    (h : (playersRun env pc now codes).1 = .error e) :
    (playersRun env pc now codes).2.1 = pc := by
  rcases playersRun_cache_or_ok env pc now codes with hc | ⟨l, hl⟩
  · exact hc
  · rw [hl] at h
    exact Except.noConfusion h

/-- C8 witness: the theorem at a concrete aborted call (parse failure),
with the starting cache non-empty. -/
theorem c8_error_leaves_cache_unchanged_witness :
    (playersRun env1 cache1 5 ["abc"]).2.1 = cache1 :=
  c8_error_leaves_cache_unchanged env1 cache1 5 ["abc"]
    ("swgohhelp: error parsing ally codes: "
      ++ formatNumError { num := "", err := "invalid syntax" })
    (by decide)

/-- C7: if the pipeline reaches the stat-overlay stage and the overlay
call for record `k` of the miss set fails while every earlier record's
overlay call succeeded, `Players` returns that error and no result list —
no partially enriched records are surfaced. -/
theorem c7_overlay_failure_fails_whole_batch (env : FetchEnv) (pc : Cache)
    (now : Nat) (codes : List String) (nums : List Int) (hits : List Player)
    (m : Int) (ms : List Int) (ps : List Player)
    (cat : List (String × String)) (k : Nat) (e : String)
    (hparse : parseAllyCodes codes = .ok nums)
    (hpart : partitionCache pc now nums = (hits, m :: ms))
    (hfetch : env.fetch (m :: ms) = .ok ps)
    (hcat : env.catalog = .ok cat)
    (hk : k < ps.length)
    (hearlier : ∀ j, j < k → ∃ r, env.overlay j = .ok r)
    (hfail : env.overlay k = .error e) :
    (playersRun env pc now codes).1 = .error e := by
  have hov : (overlayAll env.overlay 0 (ps.map (enrichTitles cat))).1 = .error e := by
    apply overlayAll_first_error (ps.map (enrichTitles cat)) 0 k e
    · simpa using hk
    · intro j hj
      simpa using hearlier j hj
    · simpa using hfail
  cases hspl : overlayAll env.overlay 0 (ps.map (enrichTitles cat)) with
  | mk res calls =>
    rw [hspl] at hov
    cases res with
    | ok l2 => exact absurd hov (by simp)
    | error e2 =>
      simp only at hov
      simp only [playersRun, hparse, hpart, hfetch, hcat, hspl, hov]

/-- C7 witness: two miss records; the first record's overlay call succeeds
and the second fails, and the whole call returns the failure. -/
theorem c7_overlay_failure_fails_whole_batch_witness :
    (playersRun env4 cache0 0 ["222222222", "3"]).1
      = .error "crinolo: connection reset" :=
  c7_overlay_failure_fails_whole_batch env4 cache0 0 ["222222222", "3"]
    [222222222, 3] [] 222222222 [3] [pBraw, pCraw] cat1 1
    "crinolo: connection reset"
    (by decide) (by decide) rfl rfl (by decide)
    (by
      intro j hj
      have hj0 : j = 0 := by omega
      subst hj0
      exact ⟨[], rfl⟩)
    rfl

/-- C6: on every successful run that reaches the enrichment stage, each
returned record's selected title and every unlocked-title entry are the
catalog display names of the fetched record's title keys, and any key
absent from the catalog resolves to the empty name without an error. -/
theorem c6_titles_rewritten (env : FetchEnv) (pc : Cache) (now : Nat)
    (codes : List String) (nums : List Int) (hits : List Player)
    (m : Int) (ms : List Int) (ps : List Player) (cat : List (String × String))
    (final : List Player) (c2 : Cache) (calls : List RemoteCall)
    (hparse : parseAllyCodes codes = .ok nums)
    (hpart : partitionCache pc now nums = (hits, m :: ms))
    (hfetch : env.fetch (m :: ms) = .ok ps)
    (hcat : env.catalog = .ok cat)
    (hrun : playersRun env pc now codes = (.ok final, c2, calls)) :
    final.map (fun p => p.titles)
      = ps.map (fun p =>
          ({ selected := lookupName cat p.titles.selected,
             unlocked := p.titles.unlocked.map (lookupName cat) } : PlayerTitles))
    ∧ ∀ k2 : String, (∀ x ∈ cat, x.1 ≠ k2) → lookupName cat k2 = "" := by
  refine ⟨?_, fun k2 hk2 => lookupName_not_found hk2⟩
  cases hspl : overlayAll env.overlay 0 (ps.map (enrichTitles cat)) with
  | mk res calls2 =>
    cases res with
    | error e =>
      simp only [playersRun, hparse, hpart, hfetch, hcat, hspl] at hrun
      exact absurd hrun (by simp)
    | ok l2 =>
      simp only [playersRun, hparse, hpart, hfetch, hcat, hspl, Prod.mk.injEq,
        Except.ok.injEq] at hrun
      obtain ⟨h1, _, _⟩ := hrun
      subst h1
      have ht := overlayAll_ok_titles (ps.map (enrichTitles cat)) 0 l2 calls2 hspl
      rw [ht, List.map_map]
      simp [Function.comp, enrichTitles]

/-- C6 witness: the theorem's title conclusion at a concrete run — `t2`
resolves to its display name, the unlocked key `t3` is absent from the
catalog and resolves to the empty name. -/
theorem c6_titles_rewritten_witness :
    [pBfinal].map (fun p => p.titles)
      = [pBraw].map (fun p =>
          ({ selected := lookupName cat1 p.titles.selected,
             unlocked := p.titles.unlocked.map (lookupName cat1) } : PlayerTitles)) :=
  (c6_titles_rewritten env1 cache0 0 ["222-222-222"] [222222222] [] 222222222 []
    [pBraw] cat1 [pBfinal]
    { ttl := 100,
      entries := [{ key := "222222222", player := pBfinal, expiresAt := 100 }] }
    [.profileBatch [222222222], .catalogFetch, .statOverlay 0]
    (by decide) (by decide) rfl rfl (by decide)).1

/-- C3: with the identifier not cached at the first call, the first call
issues exactly one profile-batch request (plus the catalog fetch and one
overlay call) and caches the enriched record; a second call before the TTL
elapses issues NO remote call at all and returns the same record — the two
calls are record-equal and exactly one profile batch happens in total. -/
theorem c3_second_call_served_from_cache (env : FetchEnv) (pc : Cache)
    (t1 t2 : Nat) (s : String) (n : Int) (p : Player)
    (cat : List (String × String)) (r : List PlayerUnit)
    (hparse : parseAllyCodes [s] = .ok [n])
    (hmiss : cacheGet pc t1 (toString n) = none)
    (hfetch : env.fetch [n] = .ok [p])
    (hac : p.allyCode = n)
    (hcat : env.catalog = .ok cat)
    (hov : env.overlay 0 = .ok r)
    (httl : t2 ≤ t1 + pc.ttl) :
    playersRun env pc t1 [s]
      = (.ok [applyOverlay (enrichTitles cat p) r],
         cachePut pc t1 (toString n) (applyOverlay (enrichTitles cat p) r),
         [.profileBatch [n], .catalogFetch, .statOverlay 0])
    ∧ playersRun env (cachePut pc t1 (toString n) (applyOverlay (enrichTitles cat p) r)) t2 [s]
      = (.ok [applyOverlay (enrichTitles cat p) r],
         cachePut pc t1 (toString n) (applyOverlay (enrichTitles cat p) r),
         []) := by
  have hpart1 : partitionCache pc t1 [n] = ([], [n]) := by
    simp [partitionCache, hmiss]
  have hov1 : overlayAll env.overlay 0 [enrichTitles cat p]
      = (.ok [applyOverlay (enrichTitles cat p) r], [.statOverlay 0]) := by
    simp [overlayAll, hov]
  constructor
  · simp only [playersRun, hparse, hpart1, hfetch, hcat, List.map_cons,
      List.map_nil, hov1, List.foldl]
    simp [hac]
  · have hget2 : cacheGet
        (cachePut pc t1 (toString n) (applyOverlay (enrichTitles cat p) r)) t2
        (toString n) = some (applyOverlay (enrichTitles cat p) r) :=
      cacheGet_put_self httl
    have hpart2 : partitionCache
        (cachePut pc t1 (toString n) (applyOverlay (enrichTitles cat p) r)) t2 [n]
        = ([applyOverlay (enrichTitles cat p) r], []) := by
      simp [partitionCache, hget2]
    simp only [playersRun, hparse, hpart2]

/-- C3 witness: the theorem at a concrete identifier, empty cache and
oracles; the second call happens 50 ticks later with TTL 100. -/
theorem c3_second_call_served_from_cache_witness :
    playersRun env3 cache0 0 ["1"]
      = (.ok [applyOverlay (enrichTitles [("t", "T")] p3) []],
         cachePut cache0 0 (toString (1 : Int))
           (applyOverlay (enrichTitles [("t", "T")] p3) []),
         [.profileBatch [1], .catalogFetch, .statOverlay 0])
    ∧ playersRun env3
        (cachePut cache0 0 (toString (1 : Int))
          (applyOverlay (enrichTitles [("t", "T")] p3) [])) 50 ["1"]
      = (.ok [applyOverlay (enrichTitles [("t", "T")] p3) []],
         cachePut cache0 0 (toString (1 : Int))
           (applyOverlay (enrichTitles [("t", "T")] p3) []),
         []) :=
  c3_second_call_served_from_cache env3 cache0 0 50 "1" 1 p3 [("t", "T")] []
    (by decide) (by decide) rfl rfl rfl rfl (by decide)

/-- C10 witness: the theorem at a concrete token, content type and
constructor error. -/
theorem c10_nil_request_dereferenced_witness :
    buildCallRequest "tok" "application/json" (.error "parse url: invalid") = .panicked :=
  (c10_nil_request_dereferenced "tok" "application/json" "parse url: invalid").1
